import Mathlib

set_option linter.dupNamespace false

/-!
Verification development for the go-pglock repository: a thin façade over
PostgreSQL session-level advisory locks.  The façade (`Lock`, `NewLock` and the
seven methods) is embedded from the Go source (lock.go).  The lock backend
itself is PostgreSQL: its six primitives are not part of the repository, so
they are modelled from the specification's backend contract (six atomic
primitives over per-(session, key) exclusive/shared stack counts).
-/

namespace Pglock

/-- Errors that a database round-trip can surface, following the spec's error
taxonomy: `sessionClosed` models `database/sql`'s `ErrConnDone`, `cancelled`
and `deadlineExceeded` are the cancellation-kind context errors, `ioFailure`
is any infrastructure failure of the round-trip. -/
inductive DBError
  | sessionClosed
  | ioFailure
  | cancelled
  | deadlineExceeded
  | connectionUnavailable
deriving DecidableEq, Repr

/-- Whether an error is of cancellation kind (context cancelled or deadline
elapsed). -/
def DBError.isCancellation : DBError → Bool
  | .cancelled => true
  | .deadlineExceeded => true
  | _ => false

/-- Modelled from the spec: the backend-side state the core never caches —
for each of the `n` backend sessions and each 64-bit key, a stack count of
exclusive holds and a stack count of shared holds. -/
@[ext]
structure BackendState (n : Nat) where
  excl : Fin n → Int → Nat
  shrd : Fin n → Int → Nat

variable {n : Nat}

/-- Increment the exclusive count of session `s` on key `k`. -/
def BackendState.incrExcl (st : BackendState n) (s : Fin n) (k : Int) :
    BackendState n :=
  { st with excl := fun t j => if t = s ∧ j = k then st.excl t j + 1 else st.excl t j }

/-- Increment the shared count of session `s` on key `k`. -/
def BackendState.incrShrd (st : BackendState n) (s : Fin n) (k : Int) :
    BackendState n :=
  { st with shrd := fun t j => if t = s ∧ j = k then st.shrd t j + 1 else st.shrd t j }

/-- Decrement (truncated at zero) the exclusive count of session `s` on key
`k`: decrementing an already-zero count leaves it at zero. -/
def BackendState.decrExcl (st : BackendState n) (s : Fin n) (k : Int) :
    BackendState n :=
  { st with excl := fun t j => if t = s ∧ j = k then st.excl t j - 1 else st.excl t j }

/-- Decrement (truncated at zero) the shared count of session `s` on key `k`. -/
def BackendState.decrShrd (st : BackendState n) (s : Fin n) (k : Int) :
    BackendState n :=
  { st with shrd := fun t j => if t = s ∧ j = k then st.shrd t j - 1 else st.shrd t j }

/-- Modelled from the spec: an exclusive request by session `s` on key `k` is
grantable iff no *other* session holds any count (exclusive or shared) on `k`;
a session's own holds never block it (invariant I4). -/
def noOtherHolds (st : BackendState n) (s : Fin n) (k : Int) : Bool :=
  decide (∀ t : Fin n, t ≠ s → st.excl t k = 0 ∧ st.shrd t k = 0)

/-- Modelled from the spec: a shared request by session `s` on key `k` is
grantable iff no *other* session holds an exclusive count on `k`. -/
def noOtherExcl (st : BackendState n) (s : Fin n) (k : Int) : Bool :=
  decide (∀ t : Fin n, t ≠ s → st.excl t k = 0)

/-- Modelled from the spec: backend primitive
`try_exclusive(key) -> acquired:boolean` — non-blocking; acquires and
increments the caller's exclusive count iff no other session holds any count
on the key, else returns false leaving the state unchanged. -/
def tryExclusive (st : BackendState n) (s : Fin n) (k : Int) :
    Bool × BackendState n :=
  if noOtherHolds st s k then (true, st.incrExcl s k) else (false, st)

/-- Modelled from the spec: backend primitive
`try_shared(key) -> acquired:boolean` — non-blocking; acquires and increments
the caller's shared count iff no other session holds an exclusive count on the
key, else returns false leaving the state unchanged. -/
def tryShared (st : BackendState n) (s : Fin n) (k : Int) :
    Bool × BackendState n :=
  if noOtherExcl st s k then (true, st.incrShrd s k) else (false, st)

/-- Modelled from the spec: backend primitive `wait_exclusive(key)` — blocks
until acquired.  `none` means the request does not complete in the current
state (the caller stays blocked); `some st` is the state after acquisition. -/
def waitExclusive (st : BackendState n) (s : Fin n) (k : Int) :
    Option (BackendState n) :=
  if noOtherHolds st s k then some (st.incrExcl s k) else none

/-- Modelled from the spec: backend primitive `wait_shared(key)` — blocks
until acquired. -/
def waitShared (st : BackendState n) (s : Fin n) (k : Int) :
    Option (BackendState n) :=
  if noOtherExcl st s k then some (st.incrShrd s k) else none

/-- Modelled from the spec: backend primitive `release_exclusive(key)` —
decrements the caller's exclusive count by one; releasing an already-zero
count is a silent no-op, never an error. -/
def releaseExclusive (st : BackendState n) (s : Fin n) (k : Int) :
    BackendState n :=
  st.decrExcl s k

/-- Modelled from the spec: backend primitive `release_shared(key)`. -/
def releaseShared (st : BackendState n) (s : Fin n) (k : Int) :
    BackendState n :=
  st.decrShrd s k

/-- Modelled from the spec: ending a backend session releases every count it
holds, on every key, unconditionally ("closing/ending the session releases
every count unconditionally"). -/
def closeSession (st : BackendState n) (s : Fin n) : BackendState n :=
  { excl := fun t j => if t = s then 0 else st.excl t j
    shrd := fun t j => if t = s then 0 else st.shrd t j }

/-- A dedicated backend connection handle: which backend session it is bound
to, and whether it has been closed (`database/sql` marks a closed `*sql.Conn`
done, after which every use fails with `ErrConnDone`). -/
structure Conn (n : Nat) where
  session : Fin n
  closed : Bool
deriving DecidableEq, Repr

/-- Embeds the Go struct `Lock { id int64; conn *sql.Conn }`.  `conn = none`
models a nil connection pointer (the zero value `Lock{}`). -/
structure Lock (n : Nat) where
  id : Int
  conn : Option (Conn n)
deriving DecidableEq, Repr

/-- Outcome of calling a Go method: `undef` models a nil-pointer dereference
(the method panics rather than returning), `blocked` models a blocking call
that does not return in the current state, `ret` is a normal return. -/
inductive MethodResult (α : Type)
  | undef
  | blocked
  | ret (a : α)
deriving DecidableEq, Repr

/-- The SQL text sent by `Lock.Lock` in lock.go. -/
def tryExclusiveSQL : String := "SELECT pg_try_advisory_lock($1)"

/-- The SQL text sent by `Lock.RLock` in lock.go. -/
def trySharedSQL : String := "SELECT pg_try_advisory_lock_shared($1)"

/-- The SQL text sent by `Lock.WaitAndLock` in lock.go. -/
def waitExclusiveSQL : String := "SELECT pg_advisory_lock($1)"

/-- The SQL text sent by `Lock.WaitAndRLock` in lock.go. -/
def waitSharedSQL : String := "SELECT pg_advisory_lock_shared($1)"

/-- The SQL text sent by `Lock.Unlock` in lock.go. -/
def releaseExclusiveSQL : String := "SELECT pg_advisory_unlock($1)"

/-- The SQL text sent by `Lock.RUnlock` in lock.go. -/
def releaseSharedSQL : String := "SELECT pg_advisory_unlock_shared($1)"

/-- The six backend primitives of the spec's backend wire contract. -/
inductive Primitive
  | try_exclusive
  | try_shared
  | wait_exclusive
  | wait_shared
  | release_exclusive
  | release_shared
deriving DecidableEq, Repr

/-- The designated PostgreSQL query for each backend primitive. -/
def primitiveSQL : Primitive → String
  | .try_exclusive => "SELECT pg_try_advisory_lock($1)"
  | .try_shared => "SELECT pg_try_advisory_lock_shared($1)"
  | .wait_exclusive => "SELECT pg_advisory_lock($1)"
  | .wait_shared => "SELECT pg_advisory_lock_shared($1)"
  | .release_exclusive => "SELECT pg_advisory_unlock($1)"
  | .release_shared => "SELECT pg_advisory_unlock_shared($1)"

/-- Environment outcome of one blocking round-trip: the wait ran to
completion, the context was cancelled, its deadline elapsed, or the round-trip
failed with an infrastructure error. -/
inductive WaitOutcome
  | completes
  | cancelled
  | deadline
  | ioErr (e : DBError)
deriving DecidableEq, Repr

/-- Embeds Go `func (l *Lock) Lock(ctx) (bool, error)`:
`result := false; err := l.conn.QueryRowContext(ctx, "SELECT
pg_try_advisory_lock($1)", l.id).Scan(&result); return result, err`.
`io` is the outcome of the I/O round-trip (`some e` = the query failed with
`e`, leaving `result` at its `false` initialisation).  The second component
is the list of SQL queries the call sent.  A nil `conn` dereference is
`undef`; a closed conn fails with `sessionClosed` without reaching the
database. -/
def Lock.Lock (l : Pglock.Lock n) (io : Option DBError) (st : BackendState n) :
    MethodResult ((Bool × Option DBError) × BackendState n) × List String :=
  match l.conn with
  | none => (.undef, [])
  | some c =>
    if c.closed then (.ret ((false, some .sessionClosed), st), [])
    else
      match io with
      | some e => (.ret ((false, some e), st), [tryExclusiveSQL])
      | none =>
        let r := tryExclusive st c.session l.id
        (.ret ((r.1, none), r.2), [tryExclusiveSQL])

/-- Embeds Go `func (l *Lock) RLock(ctx) (bool, error)`: same shape as
`Lock.Lock` with query `SELECT pg_try_advisory_lock_shared($1)`. -/
def Lock.RLock (l : Pglock.Lock n) (io : Option DBError) (st : BackendState n) :
    MethodResult ((Bool × Option DBError) × BackendState n) × List String :=
  match l.conn with
  | none => (.undef, [])
  | some c =>
    if c.closed then (.ret ((false, some .sessionClosed), st), [])
    else
      match io with
      | some e => (.ret ((false, some e), st), [trySharedSQL])
      | none =>
        let r := tryShared st c.session l.id
        (.ret ((r.1, none), r.2), [trySharedSQL])

/-- Embeds Go `func (l *Lock) WaitAndLock(ctx) error`:
`_, err := l.conn.ExecContext(ctx, "SELECT pg_advisory_lock($1)", l.id)`.
The blocking wait's interaction with the context is modelled by
`WaitOutcome`: cancellation or deadline before acquisition returns the
corresponding cancellation-kind error with the backend state unchanged (the
spec: a cancelled wait must not silently acquire the lock); `completes`
acquires when grantable and stays `blocked` otherwise. -/
def Lock.WaitAndLock (l : Pglock.Lock n) (out : WaitOutcome) (st : BackendState n) :
    MethodResult (Option DBError × BackendState n) × List String :=
  match l.conn with
  | none => (.undef, [])
  | some c =>
    if c.closed then (.ret (some .sessionClosed, st), [])
    else
      match out with
      | .ioErr e => (.ret (some e, st), [waitExclusiveSQL])
      | .cancelled => (.ret (some .cancelled, st), [waitExclusiveSQL])
      | .deadline => (.ret (some .deadlineExceeded, st), [waitExclusiveSQL])
      | .completes =>
        match waitExclusive st c.session l.id with
        | some st2 => (.ret (none, st2), [waitExclusiveSQL])
        | none => (.blocked, [waitExclusiveSQL])

/-- Embeds Go `func (l *Lock) WaitAndRLock(ctx) error`: same shape as
`WaitAndLock` with query `SELECT pg_advisory_lock_shared($1)`. -/
def Lock.WaitAndRLock (l : Pglock.Lock n) (out : WaitOutcome) (st : BackendState n) :
    MethodResult (Option DBError × BackendState n) × List String :=
  match l.conn with
  | none => (.undef, [])
  | some c =>
    if c.closed then (.ret (some .sessionClosed, st), [])
    else
      match out with
      | .ioErr e => (.ret (some e, st), [waitSharedSQL])
      | .cancelled => (.ret (some .cancelled, st), [waitSharedSQL])
      | .deadline => (.ret (some .deadlineExceeded, st), [waitSharedSQL])
      | .completes =>
        match waitShared st c.session l.id with
        | some st2 => (.ret (none, st2), [waitSharedSQL])
        | none => (.blocked, [waitSharedSQL])

/-- Embeds Go `func (l *Lock) Unlock(ctx) error`:
`_, err := l.conn.ExecContext(ctx, "SELECT pg_advisory_unlock($1)", l.id)`. -/
def Lock.Unlock (l : Pglock.Lock n) (io : Option DBError) (st : BackendState n) :
    MethodResult (Option DBError × BackendState n) × List String :=
  match l.conn with
  | none => (.undef, [])
  | some c =>
    if c.closed then (.ret (some .sessionClosed, st), [])
    else
      match io with
      | some e => (.ret (some e, st), [releaseExclusiveSQL])
      | none => (.ret (none, releaseExclusive st c.session l.id), [releaseExclusiveSQL])

/-- Embeds Go `func (l *Lock) RUnlock(ctx) error`: same shape as `Unlock`
with query `SELECT pg_advisory_unlock_shared($1)`. -/
def Lock.RUnlock (l : Pglock.Lock n) (io : Option DBError) (st : BackendState n) :
    MethodResult (Option DBError × BackendState n) × List String :=
  match l.conn with
  | none => (.undef, [])
  | some c =>
    if c.closed then (.ret (some .sessionClosed, st), [])
    else
      match io with
      | some e => (.ret (some e, st), [releaseSharedSQL])
      | none => (.ret (none, releaseShared st c.session l.id), [releaseSharedSQL])

/-- Embeds Go `func (l *Lock) Close() error`: `return l.conn.Close()`.
Closing the connection ends the backend session, which (spec, backend
contract) releases every count the session holds; the returned `Lock` value
carries the now-closed connection, and the call sends no lock primitive.
A nil `conn` is `undef`. -/
def Lock.Close (l : Pglock.Lock n) (st : BackendState n) :
    MethodResult (Option DBError × Pglock.Lock n × BackendState n) × List String :=
  match l.conn with
  | none => (.undef, [])
  | some c =>
    (.ret (none, { l with conn := some { c with closed := true } },
      closeSession st c.session), [])

/-- Embeds Go `func NewLock(ctx, id, db) (Lock, error)`:
`conn, err := db.Conn(ctx); if err != nil { return Lock{}, err };
return Lock{id: id, conn: conn}, nil`.  `source` is the result of the single
`db.Conn` request; the final `Nat` counts how many connections were requested
from the source (always exactly one). -/
def NewLock (id : Int) (source : Except DBError (Conn n)) :
    (Lock n × Option DBError) × Nat :=
  match source with
  | .error e => ((⟨0, none⟩, some e), 1)
  | .ok c => ((⟨id, some c⟩, none), 1)

/-- The `(acquired, err)` pair a try-style call returned, if it returned at
all (`none` when the call paniced or blocked). -/
def tryResult
    (r : MethodResult ((Bool × Option DBError) × BackendState n) × List String) :
    Option (Bool × Option DBError) :=
  match r.1 with
  | .ret (p, _) => some p
  | _ => none

/-- No session other than `s` holds any count on key `k`. -/
def othersFreeAt (st : BackendState n) (s : Fin n) (k : Int) : Prop :=
  ∀ t, t ≠ s → st.excl t k = 0 ∧ st.shrd t k = 0

/-- Key `k` is completely free: no session holds any count on it. -/
def freeAt (st : BackendState n) (k : Int) : Prop :=
  ∀ t, st.excl t k = 0 ∧ st.shrd t k = 0

instance (st : BackendState n) (k : Int) : Decidable (freeAt st k) := by
  unfold freeAt
  infer_instance

instance (st : BackendState n) (s : Fin n) (k : Int) : Decidable (othersFreeAt st s k) := by
  unfold othersFreeAt
  infer_instance

/-- One acquire/release call a session can issue on a key through the façade
(exclusive/shared try-acquire or release). -/
inductive CallOp
  | tryE
  | tryS
  | relE
  | relS
deriving DecidableEq, Repr

/-- Backend state after session `s` performs one call on key `k`. -/
def applyOp (s : Fin n) (k : Int) (st : BackendState n) : CallOp → BackendState n
  | .tryE => (tryExclusive st s k).2
  | .tryS => (tryShared st s k).2
  | .relE => releaseExclusive st s k
  | .relS => releaseShared st s k

/-- Backend state after session `s` performs a sequence of calls on key `k`. -/
def applyOps (s : Fin n) (k : Int) (st : BackendState n) : List CallOp → BackendState n
  | [] => st
  | op :: ops => applyOps s k (applyOp s k st op) ops

/-- Backend state after `m` successive `try_exclusive` acquisitions by
session `s` on key `k`. -/
def acquireN (s : Fin n) (k : Int) : Nat → BackendState n → BackendState n
  | 0, st => st
  | m + 1, st => acquireN s k m (tryExclusive st s k).2

/-- Backend state after `m` successive `release_exclusive` calls by session
`s` on key `k`. -/
def releaseN (s : Fin n) (k : Int) : Nat → BackendState n → BackendState n
  | 0, st => st
  | m + 1, st => releaseN s k m (releaseExclusive st s k)

/-- The all-zero backend state over two sessions, used to evaluate the model
on concrete inputs. -/
def freeState2 : BackendState 2 :=
  ⟨fun _ _ => 0, fun _ _ => 0⟩

/-- A concrete two-session backend state in which session 0 holds one
exclusive and one shared count on key 5. -/
def heldState2 : BackendState 2 :=
  ⟨fun t j => if t = 0 ∧ j = 5 then 1 else 0,
   fun t j => if t = 0 ∧ j = 5 then 1 else 0⟩

/-- A concrete session-0 lock on key 5 with an open connection. -/
def lockA2 : Lock 2 := ⟨5, some ⟨0, false⟩⟩

/-- A concrete session-1 lock on key 5 with an open connection. -/
def lockB2 : Lock 2 := ⟨5, some ⟨1, false⟩⟩

theorem incrExcl_excl (st : BackendState n) (s : Fin n) (k : Int) (t : Fin n) (j : Int) :
    (st.incrExcl s k).excl t j =
      if t = s ∧ j = k then st.excl t j + 1 else st.excl t j := rfl

theorem incrExcl_shrd (st : BackendState n) (s : Fin n) (k : Int) :
    (st.incrExcl s k).shrd = st.shrd := rfl

theorem incrShrd_shrd (st : BackendState n) (s : Fin n) (k : Int) (t : Fin n) (j : Int) :
    (st.incrShrd s k).shrd t j =
      if t = s ∧ j = k then st.shrd t j + 1 else st.shrd t j := rfl

theorem incrShrd_excl (st : BackendState n) (s : Fin n) (k : Int) :
    (st.incrShrd s k).excl = st.excl := rfl

theorem noOtherHolds_false_of_held (st : BackendState n) (a b : Fin n) (k : Int)
    (hab : a ≠ b) (h : 0 < st.excl a k ∨ 0 < st.shrd a k) :
    noOtherHolds st b k = false := by
  simp only [noOtherHolds, decide_eq_false_iff_not]
  intro hall
  rcases hall a hab with ⟨h1, h2⟩
  rcases h with h | h <;> omega

theorem noOtherExcl_false_of_excl (st : BackendState n) (a b : Fin n) (k : Int)
    (hab : a ≠ b) (h : 0 < st.excl a k) :
    noOtherExcl st b k = false := by
  simp only [noOtherExcl, decide_eq_false_iff_not]
  intro hall
  have := hall a hab
  omega

theorem noOtherHolds_true (st : BackendState n) (b : Fin n) (k : Int)
    (h : ∀ t, t ≠ b → st.excl t k = 0 ∧ st.shrd t k = 0) :
    noOtherHolds st b k = true := by
  simpa only [noOtherHolds, decide_eq_true_eq] using h

theorem noOtherExcl_true (st : BackendState n) (b : Fin n) (k : Int)
    (h : ∀ t, t ≠ b → st.excl t k = 0) :
    noOtherExcl st b k = true := by
  simpa only [noOtherExcl, decide_eq_true_eq] using h

theorem releaseExclusive_eq_self (st : BackendState n) (s : Fin n) (k : Int)
    (h : st.excl s k = 0) : releaseExclusive st s k = st := by
  unfold releaseExclusive BackendState.decrExcl
  ext t j
  · dsimp only
    split
    · rename_i hc
      rcases hc with ⟨ht, hj⟩
      subst ht; subst hj
      omega
    · rfl
  · rfl

theorem releaseShared_eq_self (st : BackendState n) (s : Fin n) (k : Int)
    (h : st.shrd s k = 0) : releaseShared st s k = st := by
  unfold releaseShared BackendState.decrShrd
  ext t j
  · rfl
  · dsimp only
    split
    · rename_i hc
      rcases hc with ⟨ht, hj⟩
      subst ht; subst hj
      omega
    · rfl

theorem applyOp_excl_other (s : Fin n) (k : Int) (st : BackendState n) (op : CallOp)
    (t : Fin n) (j : Int) (ht : t ≠ s) :
    (applyOp s k st op).excl t j = st.excl t j := by
  cases op with
  | tryE =>
    simp only [applyOp, tryExclusive]
    split
    · simp [BackendState.incrExcl, ht]
    · rfl
  | tryS =>
    simp only [applyOp, tryShared]
    split <;> rfl
  | relE =>
    simp [applyOp, releaseExclusive, BackendState.decrExcl, ht]
  | relS => rfl

theorem applyOp_shrd_other (s : Fin n) (k : Int) (st : BackendState n) (op : CallOp)
    (t : Fin n) (j : Int) (ht : t ≠ s) :
    (applyOp s k st op).shrd t j = st.shrd t j := by
  cases op with
  | tryE =>
    simp only [applyOp, tryExclusive]
    split <;> rfl
  | tryS =>
    simp only [applyOp, tryShared]
    split
    · simp [BackendState.incrShrd, ht]
    · rfl
  | relE => rfl
  | relS =>
    simp [applyOp, releaseShared, BackendState.decrShrd, ht]

theorem applyOps_excl_other (s : Fin n) (k : Int) (ops : List CallOp)
    (st : BackendState n) (t : Fin n) (j : Int) (ht : t ≠ s) :
    (applyOps s k st ops).excl t j = st.excl t j := by
  induction ops generalizing st with
  | nil => rfl
  | cons op ops ih =>
    simp only [applyOps]
    rw [ih, applyOp_excl_other s k st op t j ht]

theorem applyOps_shrd_other (s : Fin n) (k : Int) (ops : List CallOp)
    (st : BackendState n) (t : Fin n) (j : Int) (ht : t ≠ s) :
    (applyOps s k st ops).shrd t j = st.shrd t j := by
  induction ops generalizing st with
  | nil => rfl
  | cons op ops ih =>
    simp only [applyOps]
    rw [ih, applyOp_shrd_other s k st op t j ht]

theorem closeSession_excl (st : BackendState n) (s t : Fin n) (j : Int) :
    (closeSession st s).excl t j = if t = s then 0 else st.excl t j := rfl

theorem closeSession_shrd (st : BackendState n) (s t : Fin n) (j : Int) :
    (closeSession st s).shrd t j = if t = s then 0 else st.shrd t j := rfl

theorem acquireN_eq (a : Fin n) (k : Int) (m : Nat) (st : BackendState n)
    (h : othersFreeAt st a k) :
    acquireN a k m st =
      ⟨fun t j => if t = a ∧ j = k then st.excl t j + m else st.excl t j, st.shrd⟩ := by
  induction m generalizing st with
  | zero =>
    ext t j
    · dsimp only [acquireN]
      split <;> simp
    · rfl
  | succ m ih =>
    have hgrant : noOtherHolds st a k = true :=
      noOtherHolds_true st a k h
    have hstep : (tryExclusive st a k).2 = st.incrExcl a k := by
      simp [tryExclusive, hgrant]
    have hfree2 : othersFreeAt (st.incrExcl a k) a k := by
      intro t ht
      constructor
      · rw [incrExcl_excl]
        have : ¬(t = a ∧ k = k) := by
          intro hc
          exact ht hc.1
        rw [if_neg this]
        exact (h t ht).1
      · rw [incrExcl_shrd]
        exact (h t ht).2
    calc acquireN a k (m + 1) st = acquireN a k m (tryExclusive st a k).2 := rfl
      _ = acquireN a k m (st.incrExcl a k) := by rw [hstep]
      _ = ⟨fun t j => if t = a ∧ j = k then (st.incrExcl a k).excl t j + m
            else (st.incrExcl a k).excl t j, (st.incrExcl a k).shrd⟩ := ih _ hfree2
      _ = ⟨fun t j => if t = a ∧ j = k then st.excl t j + (m + 1)
            else st.excl t j, st.shrd⟩ := by
          ext t j
          · dsimp only
            rw [incrExcl_excl]
            split <;> omega
          · rfl

theorem releaseN_eq (a : Fin n) (k : Int) (m : Nat) (st : BackendState n) :
    releaseN a k m st =
      ⟨fun t j => if t = a ∧ j = k then st.excl t j - m else st.excl t j, st.shrd⟩ := by
  induction m generalizing st with
  | zero =>
    ext t j
    · dsimp only [releaseN]
      split <;> simp
    · rfl
  | succ m ih =>
    calc releaseN a k (m + 1) st = releaseN a k m (releaseExclusive st a k) := rfl
      _ = ⟨fun t j => if t = a ∧ j = k then (releaseExclusive st a k).excl t j - m
            else (releaseExclusive st a k).excl t j, (releaseExclusive st a k).shrd⟩ :=
          ih _
      _ = ⟨fun t j => if t = a ∧ j = k then st.excl t j - (m + 1)
            else st.excl t j, st.shrd⟩ := by
          ext t j
          · dsimp only [releaseExclusive, BackendState.decrExcl]
            split <;> omega
          · rfl

/-- Claim C1, counterexample to the claim as stated: starting from the free
state, session 0 acquires exclusive and then shared on key 5 (both grants the
backend allows).  Session 0's shared count is positive, yet session 1 cannot
make its shared count positive — its `try_shared` returns false — because
session 0 also holds an exclusive count on the key. -/
theorem c1_claim_counterexample :
    0 < ((tryShared (tryExclusive freeState2 0 5).2 0 5).2).shrd 0 5 ∧
    (tryShared ((tryShared (tryExclusive freeState2 0 5).2 0 5).2) 1 5).1 = false := by
  decide

/-- Claim C1 (amended): while a session's exclusive count on an identity is
positive, no other session can make its exclusive or shared count positive
(its try calls return false and its waits block); while a session's shared
count is positive, no other session can make its exclusive count positive,
and — provided no session holds an exclusive count on the identity — other
sessions can still make their shared counts positive. -/
theorem c1_compat_amended (n : Nat) (st : BackendState n) (a b : Fin n) (k : Int)
    (hab : b ≠ a) :
    (0 < st.excl a k →
      (tryExclusive st b k).1 = false ∧ (tryShared st b k).1 = false ∧
      waitExclusive st b k = none ∧ waitShared st b k = none) ∧
    (0 < st.shrd a k →
      (tryExclusive st b k).1 = false ∧ waitExclusive st b k = none) ∧
    (0 < st.shrd a k → (∀ t, st.excl t k = 0) →
      (tryShared st b k).1 = true ∧ waitShared st b k ≠ none) := by
  refine ⟨?_, ?_, ?_⟩
  · intro h
    have hno : noOtherHolds st b k = false :=
      noOtherHolds_false_of_held st a b k (Ne.symm hab) (Or.inl h)
    have hnoE : noOtherExcl st b k = false :=
      noOtherExcl_false_of_excl st a b k (Ne.symm hab) h
    simp [tryExclusive, tryShared, waitExclusive, waitShared, hno, hnoE]
  · intro h
    have hno : noOtherHolds st b k = false :=
      noOtherHolds_false_of_held st a b k (Ne.symm hab) (Or.inr h)
    simp [tryExclusive, waitExclusive, hno]
  · intro _ hall
    have hyes : noOtherExcl st b k = true :=
      noOtherExcl_true st b k (fun t _ => hall t)
    simp [tryShared, waitShared, hyes]

/-- Witness for the amended C1 at a concrete input: two sessions, session 0
holding one exclusive and one shared count on key 5, session 1 querying. -/
theorem c1_compat_amended_witness :
    (0 < heldState2.excl 0 5 →
      (tryExclusive heldState2 1 5).1 = false ∧ (tryShared heldState2 1 5).1 = false ∧
      waitExclusive heldState2 1 5 = none ∧ waitShared heldState2 1 5 = none) ∧
    (0 < heldState2.shrd 0 5 →
      (tryExclusive heldState2 1 5).1 = false ∧ waitExclusive heldState2 1 5 = none) ∧
    (0 < heldState2.shrd 0 5 → (∀ t, heldState2.excl t 5 = 0) →
      (tryShared heldState2 1 5).1 = true ∧ waitShared heldState2 1 5 ≠ none) :=
  c1_compat_amended 2 heldState2 0 1 5 (by decide)

/-- Claim C2: a non-blocking exclusive acquire on an identity held by another
session returns `(false, nil)` — contention is reported through the boolean
with no error — while an infrastructure failure of the round-trip returns the
failure as a non-nil error (still with `acquired = false`), so the contended
and failed outcomes are never collapsed. -/
theorem c2_try_contended_false_nil (n : Nat) (l : Lock n) (c : Conn n)
    (st : BackendState n) (t : Fin n)
    (hc : l.conn = some c) (hopen : c.closed = false)
    (ht : t ≠ c.session) (hheld : 0 < st.excl t l.id ∨ 0 < st.shrd t l.id) :
    (l.Lock none st).1 = .ret ((false, none), st) ∧
    (∀ e, (l.Lock (some e) st).1 = .ret ((false, some e), st)) := by
  have hno : noOtherHolds st c.session l.id = false :=
    noOtherHolds_false_of_held st t c.session l.id ht hheld
  constructor
  · simp [Lock.Lock, hc, hopen, tryExclusive, hno]
  · intro e
    simp [Lock.Lock, hc, hopen]

/-- Witness for C2 at a concrete input: session 1's lock on key 5 contended
by session 0, which holds counts in `heldState2`. -/
theorem c2_try_contended_false_nil_witness :
    (lockB2.Lock none heldState2).1 = .ret ((false, none), heldState2) ∧
    (∀ e, (lockB2.Lock (some e) heldState2).1 = .ret ((false, some e), heldState2)) :=
  c2_try_contended_false_nil 2 lockB2 ⟨1, false⟩ heldState2 0
    (by decide) (by decide) (by decide) (Or.inl (by decide))

/-- Claim C3: whatever sequence of balanced or unbalanced acquire/release
calls a session performed, `Close` returns successfully, leaves its session
with zero exclusive and shared counts on every key, and a different session's
non-blocking exclusive acquire on the identity then immediately succeeds,
without any explicit `Unlock` by the closed session (the only other sessions
holding counts on the identity being the closed one). -/
theorem c3_close_releases_everything (n : Nat) (l l2 : Lock n) (c c2 : Conn n)
    (st : BackendState n) (ops : List CallOp) (k : Int)
    (hc : l.conn = some c) (hc2 : l2.conn = some c2) (hopen2 : c2.closed = false)
    (_hne : c2.session ≠ c.session)
    (hothers : ∀ t, t ≠ c.session → t ≠ c2.session →
      st.excl t l2.id = 0 ∧ st.shrd t l2.id = 0) :
    l.Close (applyOps c.session k st ops) =
      (.ret (none, { l with conn := some { c with closed := true } },
        closeSession (applyOps c.session k st ops) c.session), []) ∧
    (∀ j, (closeSession (applyOps c.session k st ops) c.session).excl c.session j = 0 ∧
          (closeSession (applyOps c.session k st ops) c.session).shrd c.session j = 0) ∧
    tryResult (l2.Lock none (closeSession (applyOps c.session k st ops) c.session)) =
      some (true, none) := by
  refine ⟨?_, ?_, ?_⟩
  · simp [Lock.Close, hc]
  · intro j
    constructor <;> simp [closeSession_excl, closeSession_shrd]
  · have hgrant :
        noOtherHolds (closeSession (applyOps c.session k st ops) c.session)
          c2.session l2.id = true := by
      apply noOtherHolds_true
      intro t ht
      by_cases hts : t = c.session
      · subst hts
        constructor <;> simp [closeSession_excl, closeSession_shrd]
      · rw [closeSession_excl, closeSession_shrd, if_neg hts, if_neg hts,
          applyOps_excl_other c.session k ops st t l2.id hts,
          applyOps_shrd_other c.session k ops st t l2.id hts]
        exact hothers t hts ht
    simp [Lock.Lock, hc2, hopen2, tryExclusive, hgrant, tryResult]

/-- Witness for C3 at a concrete input: session 0 stacks two further
exclusive acquires on top of `heldState2` and is then closed; session 1's
`Lock` succeeds immediately. -/
theorem c3_close_releases_everything_witness :
    lockA2.Close (applyOps 0 5 heldState2 [CallOp.tryE, CallOp.tryE]) =
      (.ret (none, (⟨5, some ⟨0, true⟩⟩ : Lock 2),
        closeSession (applyOps 0 5 heldState2 [CallOp.tryE, CallOp.tryE]) 0), []) ∧
    (∀ j, (closeSession (applyOps 0 5 heldState2 [CallOp.tryE, CallOp.tryE]) 0).excl 0 j = 0 ∧
          (closeSession (applyOps 0 5 heldState2 [CallOp.tryE, CallOp.tryE]) 0).shrd 0 j = 0) ∧
    tryResult (lockB2.Lock none
        (closeSession (applyOps 0 5 heldState2 [CallOp.tryE, CallOp.tryE]) 0)) =
      some (true, none) :=
  c3_close_releases_everything 2 lockA2 lockB2 ⟨0, false⟩ ⟨1, false⟩ heldState2
    [CallOp.tryE, CallOp.tryE] 5 (by decide) (by decide) (by decide) (by decide)
    (by decide)

/-- Claim C4: a blocking wait whose context is cancelled or whose deadline
elapses before acquisition returns a cancellation-kind error and leaves the
backend state — in particular the session's exclusive and shared counts —
unchanged: the session does not hold the lock after the cancelled wait. -/
theorem c4_cancelled_wait_no_acquire (n : Nat) (l : Lock n) (c : Conn n)
    (st : BackendState n) (out : WaitOutcome)
    (hc : l.conn = some c) (hopen : c.closed = false)
    (hcancel : out = .cancelled ∨ out = .deadline) :
    (∃ e, l.WaitAndLock out st = (.ret (some e, st), [waitExclusiveSQL]) ∧
      e.isCancellation = true) ∧
    (∃ e, l.WaitAndRLock out st = (.ret (some e, st), [waitSharedSQL]) ∧
      e.isCancellation = true) := by
  rcases hcancel with h | h <;> subst h
  · exact ⟨⟨.cancelled, by simp [Lock.WaitAndLock, hc, hopen], rfl⟩,
      ⟨.cancelled, by simp [Lock.WaitAndRLock, hc, hopen], rfl⟩⟩
  · exact ⟨⟨.deadlineExceeded, by simp [Lock.WaitAndLock, hc, hopen], rfl⟩,
      ⟨.deadlineExceeded, by simp [Lock.WaitAndRLock, hc, hopen], rfl⟩⟩

/-- Witness for C4 at a concrete input: session 1 waits on key 5 while
session 0 holds it in `heldState2`, and the context is cancelled. -/
theorem c4_cancelled_wait_no_acquire_witness :
    (∃ e, lockB2.WaitAndLock WaitOutcome.cancelled heldState2 =
        (.ret (some e, heldState2), [waitExclusiveSQL]) ∧ e.isCancellation = true) ∧
    (∃ e, lockB2.WaitAndRLock WaitOutcome.cancelled heldState2 =
        (.ret (some e, heldState2), [waitSharedSQL]) ∧ e.isCancellation = true) :=
  c4_cancelled_wait_no_acquire 2 lockB2 ⟨1, false⟩ heldState2 WaitOutcome.cancelled
    (by decide) (by decide) (Or.inl rfl)

/-- Claim C5: starting from a free identity, after session `a` performs `N`
exclusive acquires, a different session's `Lock` (TryExclusive) returns
false after any `j < N` releases by the holder — in particular after `N - 1`
— and returns true after the `N`-th release: `N` acquires followed by `N`
releases restore the identity to its free state. -/
theorem c5_stacking (n : Nat) (st : BackendState n) (l2 : Lock n) (c2 : Conn n)
    (a : Fin n) (N : Nat)
    (hfree : freeAt st l2.id) (hc2 : l2.conn = some c2) (hopen2 : c2.closed = false)
    (hba : c2.session ≠ a) (_hN : 1 ≤ N) :
    (∀ j, j < N →
      tryResult (l2.Lock none (releaseN a l2.id j (acquireN a l2.id N st))) =
        some (false, none)) ∧
    tryResult (l2.Lock none (releaseN a l2.id N (acquireN a l2.id N st))) =
      some (true, none) ∧
    freeAt (releaseN a l2.id N (acquireN a l2.id N st)) l2.id := by
  have hothers : othersFreeAt st a l2.id := fun t _ => hfree t
  have hexcl_a : ∀ j,
      (releaseN a l2.id j (acquireN a l2.id N st)).excl a l2.id = N - j := by
    intro j
    rw [releaseN_eq, acquireN_eq a l2.id N st hothers]
    dsimp only
    rw [if_pos ⟨rfl, rfl⟩, if_pos ⟨rfl, rfl⟩, (hfree a).1]
    omega
  have hexcl_other : ∀ j t, t ≠ a →
      (releaseN a l2.id j (acquireN a l2.id N st)).excl t l2.id = 0 := by
    intro j t hta
    rw [releaseN_eq, acquireN_eq a l2.id N st hothers]
    dsimp only
    simp [hta, (hfree t).1]
  have hshrd : ∀ j t,
      (releaseN a l2.id j (acquireN a l2.id N st)).shrd t l2.id = 0 := by
    intro j t
    rw [releaseN_eq, acquireN_eq a l2.id N st hothers]
    exact (hfree t).2
  refine ⟨?_, ?_, ?_⟩
  · intro j hj
    have hheld : 0 < (releaseN a l2.id j (acquireN a l2.id N st)).excl a l2.id := by
      rw [hexcl_a j]; omega
    have hno := noOtherHolds_false_of_held
      (releaseN a l2.id j (acquireN a l2.id N st)) a c2.session l2.id
      (Ne.symm hba) (Or.inl hheld)
    simp [Lock.Lock, hc2, hopen2, tryExclusive, hno, tryResult]
  · have hgrant : noOtherHolds (releaseN a l2.id N (acquireN a l2.id N st))
        c2.session l2.id = true := by
      apply noOtherHolds_true
      intro t ht
      by_cases hta : t = a
      · refine ⟨?_, hshrd N t⟩
        rw [hta, hexcl_a N]
        omega
      · exact ⟨hexcl_other N t hta, hshrd N t⟩
    simp [Lock.Lock, hc2, hopen2, tryExclusive, hgrant, tryResult]
  · intro t
    by_cases hta : t = a
    · refine ⟨?_, hshrd N t⟩
      rw [hta, hexcl_a N]
      omega
    · exact ⟨hexcl_other N t hta, hshrd N t⟩

/-- Witness for C5 at a concrete input: session 0 acquires key 5 twice from
the free two-session state; session 1's `Lock` fails after zero or one
release and succeeds after the second. -/
theorem c5_stacking_witness :
    (∀ j, j < 2 →
      tryResult (lockB2.Lock none (releaseN 0 (5 : Int) j (acquireN 0 (5 : Int) 2 freeState2))) =
        some (false, none)) ∧
    tryResult (lockB2.Lock none (releaseN 0 (5 : Int) 2 (acquireN 0 (5 : Int) 2 freeState2))) =
      some (true, none) ∧
    freeAt (releaseN 0 (5 : Int) 2 (acquireN 0 (5 : Int) 2 freeState2)) (5 : Int) :=
  c5_stacking 2 freeState2 lockB2 ⟨1, false⟩ 0 2 (by decide) (by decide)
    (by decide) (by decide) (by decide)

/-- Claim C6: releasing an exclusive (resp. shared) count that is already
zero returns nil and leaves the backend state — all counts — unchanged: a
silent no-op, not an error. -/
theorem c6_release_at_zero_noop (n : Nat) (l : Lock n) (c : Conn n)
    (st : BackendState n) (hc : l.conn = some c) (hopen : c.closed = false) :
    (st.excl c.session l.id = 0 →
      l.Unlock none st = (.ret (none, st), [releaseExclusiveSQL])) ∧
    (st.shrd c.session l.id = 0 →
      l.RUnlock none st = (.ret (none, st), [releaseSharedSQL])) := by
  constructor
  · intro hz
    have hrel : releaseExclusive st c.session l.id = st :=
      releaseExclusive_eq_self st c.session l.id hz
    simp [Lock.Unlock, hc, hopen, hrel]
  · intro hz
    have hrel : releaseShared st c.session l.id = st :=
      releaseShared_eq_self st c.session l.id hz
    simp [Lock.RUnlock, hc, hopen, hrel]

/-- Witness for C6 at a concrete input: session 1 holds nothing on key 5 in
`heldState2`, so both its releases are silent no-ops. -/
theorem c6_release_at_zero_noop_witness :
    (heldState2.excl 1 (5 : Int) = 0 →
      lockB2.Unlock none heldState2 = (.ret (none, heldState2), [releaseExclusiveSQL])) ∧
    (heldState2.shrd 1 (5 : Int) = 0 →
      lockB2.RUnlock none heldState2 = (.ret (none, heldState2), [releaseSharedSQL])) :=
  c6_release_at_zero_noop 2 lockB2 ⟨1, false⟩ heldState2 (by decide) (by decide)

/-- Claim C7: once `Close` has returned on a lock session, every subsequent
façade operation on the lock value it leaves behind fails with the
session-closed error instead of succeeding. -/
theorem c7_closed_session_rejects_all (n : Nat) (l : Lock n) (c : Conn n)
    (st st2 : BackendState n) (io : Option DBError) (out : WaitOutcome)
    (hc : l.conn = some c) :
    ∃ lc : Lock n,
      (l.Close st).1 = .ret (none, lc, closeSession st c.session) ∧
      (lc.Lock io st2).1 = .ret ((false, some .sessionClosed), st2) ∧
      (lc.RLock io st2).1 = .ret ((false, some .sessionClosed), st2) ∧
      (lc.WaitAndLock out st2).1 = .ret (some .sessionClosed, st2) ∧
      (lc.WaitAndRLock out st2).1 = .ret (some .sessionClosed, st2) ∧
      (lc.Unlock io st2).1 = .ret (some .sessionClosed, st2) ∧
      (lc.RUnlock io st2).1 = .ret (some .sessionClosed, st2) := by
  refine ⟨{ l with conn := some { c with closed := true } }, ?_, ?_, ?_, ?_, ?_, ?_, ?_⟩
  · simp [Lock.Close, hc]
  all_goals
    simp [Lock.Lock, Lock.RLock, Lock.WaitAndLock, Lock.WaitAndRLock,
      Lock.Unlock, Lock.RUnlock]

/-- Witness for C7 at a concrete input: closing session 0's lock and then
invoking every operation on the closed session. -/
theorem c7_closed_session_rejects_all_witness :
    ∃ lc : Lock 2,
      (lockA2.Close heldState2).1 = .ret (none, lc, closeSession heldState2 0) ∧
      (lc.Lock none freeState2).1 = .ret ((false, some .sessionClosed), freeState2) ∧
      (lc.RLock none freeState2).1 = .ret ((false, some .sessionClosed), freeState2) ∧
      (lc.WaitAndLock .completes freeState2).1 = .ret (some .sessionClosed, freeState2) ∧
      (lc.WaitAndRLock .completes freeState2).1 = .ret (some .sessionClosed, freeState2) ∧
      (lc.Unlock none freeState2).1 = .ret (some .sessionClosed, freeState2) ∧
      (lc.RUnlock none freeState2).1 = .ret (some .sessionClosed, freeState2) :=
  c7_closed_session_rejects_all 2 lockA2 ⟨0, false⟩ heldState2 freeState2 none
    .completes (by decide)

/-- Claim C8: every façade operation performs exactly one backend round-trip
per call, sending exactly its designated primitive's query (`Lock` →
try_exclusive, `RLock` → try_shared, `WaitAndLock` → wait_exclusive,
`WaitAndRLock` → wait_shared, `Unlock` → release_exclusive, `RUnlock` →
release_shared), while `Close` sends no primitive; and the acquired boolean a
try call returns is the backend primitive's answer on the current backend
state — no acquire/release state is cached locally. -/
theorem c8_one_primitive_per_call (n : Nat) (l : Lock n) (c : Conn n)
    (st : BackendState n) (io : Option DBError) (out : WaitOutcome)
    (hc : l.conn = some c) (hopen : c.closed = false) :
    (l.Lock io st).2 = [primitiveSQL .try_exclusive] ∧
    (l.RLock io st).2 = [primitiveSQL .try_shared] ∧
    (l.WaitAndLock out st).2 = [primitiveSQL .wait_exclusive] ∧
    (l.WaitAndRLock out st).2 = [primitiveSQL .wait_shared] ∧
    (l.Unlock io st).2 = [primitiveSQL .release_exclusive] ∧
    (l.RUnlock io st).2 = [primitiveSQL .release_shared] ∧
    (l.Close st).2 = [] ∧
    tryResult (l.Lock none st) = some ((tryExclusive st c.session l.id).1, none) ∧
    tryResult (l.RLock none st) = some ((tryShared st c.session l.id).1, none) := by
  refine ⟨?_, ?_, ?_, ?_, ?_, ?_, ?_, ?_, ?_⟩
  · cases io <;> simp [Lock.Lock, hc, hopen, primitiveSQL, tryExclusiveSQL]
  · cases io <;> simp [Lock.RLock, hc, hopen, primitiveSQL, trySharedSQL]
  · rcases out with _ | _ | _ | e
    · cases hw : waitExclusive st c.session l.id <;>
        simp [Lock.WaitAndLock, hc, hopen, hw, primitiveSQL, waitExclusiveSQL]
    all_goals simp [Lock.WaitAndLock, hc, hopen, primitiveSQL, waitExclusiveSQL]
  · rcases out with _ | _ | _ | e
    · cases hw : waitShared st c.session l.id <;>
        simp [Lock.WaitAndRLock, hc, hopen, hw, primitiveSQL, waitSharedSQL]
    all_goals simp [Lock.WaitAndRLock, hc, hopen, primitiveSQL, waitSharedSQL]
  · cases io <;> simp [Lock.Unlock, hc, hopen, primitiveSQL, releaseExclusiveSQL]
  · cases io <;> simp [Lock.RUnlock, hc, hopen, primitiveSQL, releaseSharedSQL]
  · simp [Lock.Close, hc]
  · simp [Lock.Lock, hc, hopen, tryResult]
  · simp [Lock.RLock, hc, hopen, tryResult]

/-- Witness for C8 at a concrete input: session 1's open lock on key 5 with a
failing round-trip for the error cases and `heldState2` as backend state. -/
theorem c8_one_primitive_per_call_witness :
    (lockB2.Lock (some .ioFailure) heldState2).2 = [primitiveSQL .try_exclusive] ∧
    (lockB2.RLock (some .ioFailure) heldState2).2 = [primitiveSQL .try_shared] ∧
    (lockB2.WaitAndLock .completes heldState2).2 = [primitiveSQL .wait_exclusive] ∧
    (lockB2.WaitAndRLock .completes heldState2).2 = [primitiveSQL .wait_shared] ∧
    (lockB2.Unlock (some .ioFailure) heldState2).2 = [primitiveSQL .release_exclusive] ∧
    (lockB2.RUnlock (some .ioFailure) heldState2).2 = [primitiveSQL .release_shared] ∧
    (lockB2.Close heldState2).2 = [] ∧
    tryResult (lockB2.Lock none heldState2) =
      some ((tryExclusive heldState2 1 lockB2.id).1, none) ∧
    tryResult (lockB2.RLock none heldState2) =
      some ((tryShared heldState2 1 lockB2.id).1, none) :=
  c8_one_primitive_per_call 2 lockB2 ⟨1, false⟩ heldState2 (some .ioFailure)
    .completes (by decide) (by decide)

/-- Claim C9: `NewLock` makes exactly one connection request to the source;
when the source fails, it returns the source's error unchanged together with
the zero-value lock (no usable session), and when the source succeeds the
returned lock holds exactly the supplied connection and identity. -/
theorem c9_newlock_single_request (n : Nat) (id : Int) (e : DBError) (c : Conn n) :
    NewLock (n := n) id (Except.error e) = ((⟨0, none⟩, some e), 1) ∧
    NewLock id (Except.ok c) = ((⟨id, some c⟩, none), 1) :=
  ⟨rfl, rfl⟩

/-- Claim C10: when `NewLock` fails, the lock value returned alongside the
error is the zero value whose connection handle is nil, and invoking any
façade operation on it dereferences the nil connection — the call is
undefined rather than failing gracefully. -/
theorem c10_zero_lock_nil_deref (n : Nat) (id : Int) (e : DBError)
    (io : Option DBError) (out : WaitOutcome) (st : BackendState n) :
    (NewLock (n := n) id (Except.error e)).1.1 = ⟨0, none⟩ ∧
    (NewLock (n := n) id (Except.error e)).1.1.conn = none ∧
    ((⟨0, none⟩ : Lock n).Lock io st).1 = .undef ∧
    ((⟨0, none⟩ : Lock n).RLock io st).1 = .undef ∧
    ((⟨0, none⟩ : Lock n).WaitAndLock out st).1 = .undef ∧
    ((⟨0, none⟩ : Lock n).WaitAndRLock out st).1 = .undef ∧
    ((⟨0, none⟩ : Lock n).Unlock io st).1 = .undef ∧
    ((⟨0, none⟩ : Lock n).RUnlock io st).1 = .undef ∧
    ((⟨0, none⟩ : Lock n).Close st).1 = .undef :=
  ⟨rfl, rfl, rfl, rfl, rfl, rfl, rfl, rfl, rfl⟩

end Pglock
